import Mathlib

/-!
Verification of the segment-fusion, task-registry, pipeline-progress and
analysis-orchestration core of the Emotion-Aware Multimodal Meeting
Summarizer.  Times are modelled as rationals, tables as functions from
ids to optional entries, and each fallible collaborator call as an
explicit `Except` outcome supplied by the environment.
-/

namespace MeetingSummarizer

/-! ## Segment fusion (`WhisperTranscriber._merge_transcription_diarization`) -/

/-- A transcription span: the `start`/`end`/`text` keys of one Whisper
segment.  The `end` key is called `stop` because `end` is reserved. -/
structure TransSeg where
  start : ℚ
  stop : ℚ
  text : String
deriving DecidableEq

/-- A diarization interval: `start`/`end`/`speaker`. -/
structure DiaSeg where
  start : ℚ
  stop : ℚ
  speaker : String
deriving DecidableEq

/-- A fused segment as produced by `_merge_transcription_diarization`. -/
structure MergedSeg where
  start : ℚ
  stop : ℚ
  text : String
  speaker : String
deriving DecidableEq

/-- `overlap = max(0, min(trans_end, dia_end) - max(trans_start, dia_start))`. -/
def overlap (t : TransSeg) (d : DiaSeg) : ℚ :=
  max 0 (min t.stop d.stop - max t.start d.start)

/-- One iteration of the inner loop over diarization segments: the running
pair is `(speaker, max_overlap)` and is replaced exactly when
`overlap > max_overlap`. -/
def speakerStep (t : TransSeg) (acc : String × ℚ) (d : DiaSeg) : String × ℚ :=
  if acc.2 < overlap t d then (d.speaker, overlap t d) else acc

/-- The speaker chosen for one transcription span, starting from
`("UNKNOWN", 0)` as in the source. -/
def bestSpeaker (t : TransSeg) (ds : List DiaSeg) : String :=
  (ds.foldl (speakerStep t) ("UNKNOWN", 0)).1

/-- `_merge_transcription_diarization`: one output segment per
transcription span, in input order, copying start/end/text and attaching
the chosen speaker. -/
def mergeTranscriptionDiarization (ts : List TransSeg) (ds : List DiaSeg) :
    List MergedSeg :=
  ts.map fun t => ⟨t.start, t.stop, t.text, bestSpeaker t ds⟩

/-- Running maximum of overlaps, seeded at `m`. -/
def maxOverlapFrom (t : TransSeg) (m : ℚ) (ds : List DiaSeg) : ℚ :=
  ds.foldl (fun m d => max m (overlap t d)) m

/-- The maximal overlap of a span against a diarization list (0 when the
list is empty). -/
def maxOverlap (t : TransSeg) (ds : List DiaSeg) : ℚ :=
  maxOverlapFrom t 0 ds

/-- The speaker assignment as the claim words it: the speaker of the
interval with maximal overlap, ties resolved to the first interval in
input order, and `"UNKNOWN"` whenever the maximal overlap is `0`. -/
def claimedFusedSpeaker (t : TransSeg) (ds : List DiaSeg) : String :=
  if maxOverlap t ds = 0 then "UNKNOWN"
  else (((ds.find? fun d => decide (overlap t d = maxOverlap t ds))).map
    DiaSeg.speaker).getD "UNKNOWN"

lemma maxOverlapFrom_cons (t : TransSeg) (m : ℚ) (d : DiaSeg) (ds : List DiaSeg) :
    maxOverlapFrom t m (d :: ds) = maxOverlapFrom t (max m (overlap t d)) ds := rfl

lemma le_maxOverlapFrom (t : TransSeg) (ds : List DiaSeg) :
    ∀ m : ℚ, m ≤ maxOverlapFrom t m ds := by
  induction ds with
  | nil => intro m; exact le_refl m
  | cons d ds ih =>
      intro m
      rw [maxOverlapFrom_cons]
      exact le_trans (le_max_left _ _) (ih _)

lemma maxOverlapFrom_attained (t : TransSeg) (ds : List DiaSeg) :
    ∀ m : ℚ, maxOverlapFrom t m ds = m ∨
      ∃ d ∈ ds, overlap t d = maxOverlapFrom t m ds := by
  induction ds with
  | nil => intro m; exact Or.inl rfl
  | cons d ds ih =>
      intro m
      rw [maxOverlapFrom_cons]
      rcases ih (max m (overlap t d)) with h | ⟨d', hd', he⟩
      · by_cases ho : overlap t d ≤ m
        · rw [max_eq_left ho] at h ⊢
          exact Or.inl h
        · refine Or.inr ⟨d, List.mem_cons_self d ds, ?_⟩
          rw [h, max_eq_right (le_of_lt (not_le.mp ho))]
      · exact Or.inr ⟨d', List.mem_cons_of_mem d hd', he⟩

/-- Characterisation of the inner loop from an arbitrary accumulator:
the final speaker is the seed when nothing beats the seeded maximum, and
otherwise the speaker of the first interval attaining the final maximum. -/
lemma foldl_speakerStep_spec (t : TransSeg) :
    ∀ (ds : List DiaSeg) (s₀ : String) (m₀ : ℚ),
      (ds.foldl (speakerStep t) (s₀, m₀)).1 =
        if maxOverlapFrom t m₀ ds = m₀ then s₀
        else ((ds.find? fun d => decide (overlap t d = maxOverlapFrom t m₀ ds)).map
          DiaSeg.speaker).getD s₀ := by
  intro ds
  induction ds with
  | nil => intro s₀ m₀; simp [maxOverlapFrom]
  | cons d ds ih =>
      intro s₀ m₀
      rw [List.foldl_cons, maxOverlapFrom_cons]
      by_cases h₁ : m₀ < overlap t d
      · have hstep : speakerStep t (s₀, m₀) d = (d.speaker, overlap t d) := by
          simp [speakerStep, h₁]
        rw [hstep, ih d.speaker (overlap t d), max_eq_right (le_of_lt h₁)]
        have hle : overlap t d ≤ maxOverlapFrom t (overlap t d) ds :=
          le_maxOverlapFrom t ds _
        have hm₀ : maxOverlapFrom t (overlap t d) ds ≠ m₀ := by
          intro hEq
          exact absurd (hEq ▸ hle) (not_le.mpr h₁)
        rw [if_neg hm₀]
        by_cases h₂ : maxOverlapFrom t (overlap t d) ds = overlap t d
        · rw [if_pos h₂]
          have hfind : (d :: ds).find?
              (fun x => decide (overlap t x = maxOverlapFrom t (overlap t d) ds)) =
              some d := by
            apply List.find?_cons_of_pos
            simp [h₂]
          rw [hfind]
          rfl
        · rw [if_neg h₂]
          have hfind : (d :: ds).find?
              (fun x => decide (overlap t x = maxOverlapFrom t (overlap t d) ds)) =
              ds.find? (fun x => decide (overlap t x = maxOverlapFrom t (overlap t d) ds)) := by
            apply List.find?_cons_of_neg
            simp
            intro hEq
            exact h₂ hEq.symm
          rw [hfind]
          rcases maxOverlapFrom_attained t ds (overlap t d) with hflat | ⟨d', hd', he⟩
          · exact absurd hflat h₂
          · have hsome : (ds.find?
                (fun x => decide (overlap t x = maxOverlapFrom t (overlap t d) ds))).isSome := by
              rw [List.find?_isSome]
              exact ⟨d', hd', by simp [he]⟩
            obtain ⟨y, hy⟩ := Option.isSome_iff_exists.mp hsome
            rw [hy]
            rfl
      · have hstep : speakerStep t (s₀, m₀) d = (s₀, m₀) := by
          simp [speakerStep, h₁]
        rw [hstep, ih s₀ m₀, max_eq_left (not_lt.mp h₁)]
        by_cases h₂ : maxOverlapFrom t m₀ ds = m₀
        · rw [if_pos h₂, if_pos h₂]
        · have hm : m₀ < maxOverlapFrom t m₀ ds :=
            lt_of_le_of_ne (le_maxOverlapFrom t ds m₀) (Ne.symm h₂)
          have hfind : (d :: ds).find?
              (fun x => decide (overlap t x = maxOverlapFrom t m₀ ds)) =
              ds.find? (fun x => decide (overlap t x = maxOverlapFrom t m₀ ds)) := by
            apply List.find?_cons_of_neg
            simp only [decide_eq_true_eq]
            intro hEq
            exact absurd (hEq ▸ lt_of_le_of_lt (not_lt.mp h₁) hm) (lt_irrefl _)
          rw [if_neg h₂, if_neg h₂]
          exact congrArg (fun o => (Option.map DiaSeg.speaker o).getD s₀) hfind.symm

/-- The loop's result coincides with the claim-level description. -/
lemma bestSpeaker_eq_claimed (t : TransSeg) (ds : List DiaSeg) :
    bestSpeaker t ds = claimedFusedSpeaker t ds := by
  unfold bestSpeaker claimedFusedSpeaker maxOverlap
  rw [foldl_speakerStep_spec]

/-! ## Speaker lists (`AgentOrchestrator._extract_speakers`,
`MeetingPipeline._format_results`) -/

/-- Sorting as `sorted(...)` does for strings. -/
def sortStrings (l : List String) : List String :=
  l.insertionSort (· ≤ ·)

/-- `AgentOrchestrator._extract_speakers`: collect the speakers that are
truthy and different from `"UNKNOWN"` (the Python truthiness test also
drops the empty label), deduplicate and sort. -/
def extractSpeakers (segs : List MergedSeg) : List String :=
  sortStrings (((segs.map MergedSeg.speaker).filter
    fun s => decide (s ≠ "" ∧ s ≠ "UNKNOWN")).dedup)

/-- The top-level `speakers` list built by
`MeetingPipeline._format_results`: `sorted(set(seg["speaker"]))` with no
filtering at all. -/
def formatSpeakers (segs : List MergedSeg) : List String :=
  sortStrings ((segs.map MergedSeg.speaker).dedup)

/-- The participants list described by the claim's words: the sorted
unique speaker labels with only `"UNKNOWN"` filtered out. -/
def claimedParticipants (segs : List MergedSeg) : List String :=
  sortStrings (((segs.map MergedSeg.speaker).filter
    fun s => decide (s ≠ "UNKNOWN")).dedup)

/-! ## Analysis orchestration (`AgentOrchestrator.process_meeting`,
`_generate_executive_summary`, `ContextVerificationAgent`) -/

/-- The payload of a successful action-extraction phase, restricted to
the keys the orchestrator and report formatter read. -/
structure ActionsPayload where
  action_items : List String
  decisions : List String
  follow_ups : List String
  commitments : List String
deriving DecidableEq

/-- The `overall_sentiment` sub-dictionary; `mood`/`tone` keys may be
absent (the summary then falls back to `"unknown"`). -/
structure OverallSentiment where
  mood : Option String
  tone : Option String
deriving DecidableEq

/-- The payload of a successful sentiment phase; `none` for
`overall_sentiment` models an absent or empty (falsy) dictionary. -/
structure SentimentPayload where
  overall_sentiment : Option OverallSentiment
deriving DecidableEq

/-- The payload of a context analysis that returned (the LLM-parse
fallback included), restricted to the key the summary reads. -/
structure ContextPayload where
  recurring_themes : List String
deriving DecidableEq

/-- A phase's slot in the results dictionary: a structured payload or
the `{error: message}` marker written by the per-phase handler. -/
inductive PhaseResult (α : Type) where
  | ok (payload : α)
  | err (msg : String)
deriving DecidableEq

/-- One interaction with the historical-context store: a
`similarity_search` or an `add_texts`/`persist` of the current meeting. -/
inductive StoreEvent where
  | query
  | add
deriving DecidableEq

/-- The environment of one orchestrator run: the outcome of each
collaborator call (`Except.error` models the call raising). For the
context agent, `contextAnalysis` is the outcome of
`ContextVerificationAgent.process`; its store query precedes the LLM
call and its JSON-parse failure is caught internally, so a parse
failure surfaces as `Except.ok` of a fallback payload, never as
`Except.error`. -/
structure PhaseBehavior where
  actions : Except String ActionsPayload
  sentiment : Except String SentimentPayload
  contextAnalysis : Except String ContextPayload

/-- The per-phase results assembled by `AgentOrchestrator.process_meeting`
(`context = none` when the context agent is disabled and the key is
never written). -/
structure OrchResults where
  speakers : List String
  actions : PhaseResult ActionsPayload
  sentiment : PhaseResult SentimentPayload
  context : Option (PhaseResult ContextPayload)

/-- The executive summary dictionary: optional keys model keys that are
written only conditionally. -/
structure ExecSummary where
  participants : List String
  key_highlights : List String
  top_actions : Option (List String)
  top_decisions : Option (List String)
  overall_mood : Option String
  overall_tone : Option String
deriving DecidableEq

/-- `results.get("actions", {}).get("action_items", [])`: the error
marker has no `action_items` key, so it reads as `[]`. -/
def phaseActionItems : PhaseResult ActionsPayload → List String
  | PhaseResult.ok p => p.action_items
  | PhaseResult.err _ => []

/-- `results.get("actions", {}).get("decisions", [])`. -/
def phaseDecisions : PhaseResult ActionsPayload → List String
  | PhaseResult.ok p => p.decisions
  | PhaseResult.err _ => []

/-- `results.get("sentiment", {}).get("overall_sentiment", {})` followed
by the truthiness test. -/
def sentOverall : PhaseResult SentimentPayload → Option OverallSentiment
  | PhaseResult.ok p => p.overall_sentiment
  | PhaseResult.err _ => none

/-- The action-derived lines of `key_highlights`. -/
def actionHighlightsOf (ai ds : List String) : List String :=
  (if ai.isEmpty then [] else [toString ai.length ++ " action items identified"]) ++
  (if ds.isEmpty then [] else [toString ds.length ++ " decisions made"])

/-- The sentiment-derived line of `key_highlights`. -/
def sentHighlightsOf : Option OverallSentiment → List String
  | some ov =>
      ["Meeting mood: " ++ ov.mood.getD "unknown" ++ ", tone: " ++ ov.tone.getD "unknown"]
  | none => []

/-- The context-derived line of `key_highlights`: written only when the
context result exists, carries no `error` key and has a non-empty
`recurring_themes` list. -/
def ctxHighlightsOf : Option (PhaseResult ContextPayload) → List String
  | some (PhaseResult.ok p) =>
      if p.recurring_themes.isEmpty then []
      else [toString p.recurring_themes.length ++ " recurring themes identified"]
  | _ => []

/-- `AgentOrchestrator._generate_executive_summary`. -/
def genExecSummary (res : OrchResults) : ExecSummary :=
  let ai := phaseActionItems res.actions
  let ds := phaseDecisions res.actions
  { participants := res.speakers
    key_highlights :=
      actionHighlightsOf ai ds ++ sentHighlightsOf (sentOverall res.sentiment) ++
        ctxHighlightsOf res.context
    top_actions := if ai.isEmpty then none else some (ai.take 5)
    top_decisions := if ds.isEmpty then none else some (ds.take 3)
    overall_mood := (sentOverall res.sentiment).map fun ov => ov.mood.getD "unknown"
    overall_tone := (sentOverall res.sentiment).map fun ov => ov.tone.getD "unknown" }

/-- `AgentOrchestrator.process_meeting`: each phase individually wrapped,
the context phase issuing its store query before the LLM call and
persisting the current meeting only when `store_context` is true and
`ContextVerificationAgent.process` returned without raising
(`store_meeting` itself swallows its own failures).  Returns the results
dictionary, the executive summary and the trace of historical-context
store interactions. -/
def orchestratorProcess (ph : PhaseBehavior) (ctxAgentEnabled storeContext : Bool)
    (segments : List MergedSeg) : OrchResults × ExecSummary × List StoreEvent :=
  let actionsR : PhaseResult ActionsPayload :=
    match ph.actions with
    | Except.ok p => PhaseResult.ok p
    | Except.error e => PhaseResult.err e
  let sentR : PhaseResult SentimentPayload :=
    match ph.sentiment with
    | Except.ok p => PhaseResult.ok p
    | Except.error e => PhaseResult.err e
  let ctxPair : Option (PhaseResult ContextPayload) × List StoreEvent :=
    if ctxAgentEnabled then
      match ph.contextAnalysis with
      | Except.ok p =>
          (some (PhaseResult.ok p),
            StoreEvent.query :: (if storeContext then [StoreEvent.add] else []))
      | Except.error e => (some (PhaseResult.err e), [StoreEvent.query])
    else (none, [])
  let res : OrchResults :=
    { speakers := extractSpeakers segments
      actions := actionsR
      sentiment := sentR
      context := ctxPair.1 }
  (res, genExecSummary res, ctxPair.2)

/-- The orchestrator exactly as `MeetingPipeline` drives it:
`MeetingPipeline.__init__` constructs it with `enable_context_agent=True`
and a configured ChromaDB directory, and `process_meeting` forwards
`enable_context` as `store_context`. -/
def pipelineOrchCall (ph : PhaseBehavior) (enableContext : Bool)
    (segments : List MergedSeg) : OrchResults × ExecSummary × List StoreEvent :=
  orchestratorProcess ph true enableContext segments

/-! ## Pipeline progress (`MeetingPipeline.process_meeting`) -/

/-- The outcome of each fallible stage of one `process_meeting` run, as
supplied by the environment; the data the stages hand to each other is
abstracted away since the claims here only concern control flow and the
progress callback. `validateOk` is the boolean result of
`AudioLoader.validate_audio` (a `False` makes the pipeline raise
`ValueError("Audio validation failed")`). -/
structure StageOutcomes where
  validateOk : Bool
  load : Except String Unit
  preprocess : Except String Unit
  diarize : Except String Unit
  transcribe : Except String Unit
  emotion : Except String Unit
  analyze : Except String Unit

/-- `MeetingPipeline.process_meeting`: the run's outcome together with
the exact sequence of values handed to the progress callback.  `5` is
reported before validation, each later value right after its stage;
segment fusion (step 5) and result formatting (step 8) are pure and
cannot fail; the emotion stage runs only when `enableEmotion` but `70`
is reported unconditionally; `enableContext` only changes what is
forwarded to the orchestrator, never the progress sequence. -/
def processMeetingRun (st : StageOutcomes) (enableEmotion _enableContext : Bool) :
    Except String Unit × List ℕ :=
  if st.validateOk = false then (Except.error "Audio validation failed", [5]) else
  match st.load with
  | Except.error e => (Except.error e, [5])
  | Except.ok _ =>
    match st.preprocess with
    | Except.error e => (Except.error e, [5, 10])
    | Except.ok _ =>
      match st.diarize with
      | Except.error e => (Except.error e, [5, 10, 20])
      | Except.ok _ =>
        match st.transcribe with
        | Except.error e => (Except.error e, [5, 10, 20, 35])
        | Except.ok _ =>
          match (if enableEmotion then st.emotion else Except.ok ()) with
          | Except.error e => (Except.error e, [5, 10, 20, 35, 50, 55])
          | Except.ok _ =>
            match st.analyze with
            | Except.error e => (Except.error e, [5, 10, 20, 35, 50, 55, 70])
            | Except.ok _ =>
              (Except.ok (), [5, 10, 20, 35, 50, 55, 70, 90, 100])

/-- An environment in which every stage succeeds. -/
def allStagesOk : StageOutcomes :=
  ⟨true, Except.ok (), Except.ok (), Except.ok (), Except.ok (),
    Except.ok (), Except.ok ()⟩

lemma processMeetingRun_ok_progress (st : StageOutcomes) (ee ec : Bool)
    (h : (processMeetingRun st ee ec).1 = Except.ok ()) :
    (processMeetingRun st ee ec).2 = [5, 10, 20, 35, 50, 55, 70, 90, 100] := by
  obtain ⟨v, l, p, d, tr, em, an⟩ := st
  cases v <;> cases l <;> cases p <;> cases d <;> cases tr <;> cases em <;>
    cases an <;> cases ee <;> simp_all [processMeetingRun]

/-! ## Task registry (`TaskManager`, `src/api/tasks.py`) -/

/-- One entry of the in-memory task table. -/
structure Task where
  file_id : String
  status : String
  progress : ℕ
  created_at : String
  updated_at : String
  error : Option String
deriving DecidableEq

/-- The task table `self.tasks`, a dictionary from id to entry. -/
def TaskTable : Type := String → Option Task

/-- The id built by `create_task`:
`f"task_{datetime.now().strftime('%Y%m%d_%H%M%S')}_{file_id[:8]}"`,
with the second-resolution timestamp supplied as `now`. -/
def makeTaskId (now file_id : String) : String :=
  "task_" ++ now ++ "_" ++ file_id.take 8

/-- `TaskManager.create_task`: build the id, store a `pending`, progress
`0` entry under it (a same-id dictionary assignment overwrites) and
return the id. -/
def createTask (tbl : TaskTable) (now file_id : String) : TaskTable × String :=
  let id := makeTaskId now file_id
  (fun x => if x = id then some ⟨file_id, "pending", 0, now, now, none⟩ else tbl x, id)

/-- `TaskManager.update_status`: a warning and no table change when the
id is unknown; otherwise overwrite status and `updated_at`, and progress
and error only when supplied.  Returns the table and the warnings
logged; the source function has no other exit path, so it never raises. -/
def updateStatus (tbl : TaskTable) (now id status : String)
    (progress : Option ℕ) (error : Option String) : TaskTable × List String :=
  match tbl id with
  | none => (tbl, ["Task not found: " ++ id])
  | some t =>
      let t₁ := { t with status := status, updated_at := now }
      let t₂ := match progress with
        | some p => { t₁ with progress := p }
        | none => t₁
      let t₃ := match error with
        | some e => { t₂ with error := some e }
        | none => t₂
      (fun x => if x = id then some t₃ else tbl x, [])

/-- `TaskManager.get_status`: `self.tasks.get(task_id)`. -/
def getStatus (tbl : TaskTable) (id : String) : Option Task :=
  tbl id

/-- `TaskManager.save_result`: the persistence write (`write` is the
environment's outcome for opening and dumping the JSON file) is wrapped
in `try/except Exception`, so the function's only effect visible to its
caller is the log line — its codomain is `List String`, not an
`Except`, because the source catches every storage exception. -/
def saveResultLogs (write : Except String Unit) (id : String) : List String :=
  match write with
  | Except.ok _ => ["Saved result for task: " ++ id]
  | Except.error e => ["Failed to save result for " ++ id ++ ": " ++ e]

/-- `process_meeting_task` in `src/api/main.py`: mark the task
`processing` at progress 0, run the pipeline (whose progress callback is
`update_status(task_id, "processing", progress=p)`), and on success call
`save_result` (which cannot raise) followed by
`update_status("completed", progress=100)`; on a pipeline exception mark
the task `failed` with the message. -/
def processMeetingTask (tbl : TaskTable) (now id : String) (st : StageOutcomes)
    (ee ec : Bool) (write : Except String Unit) : TaskTable :=
  let tbl₀ := (updateStatus tbl now id "processing" (some 0) none).1
  let run := processMeetingRun st ee ec
  let tbl₁ := run.2.foldl
    (fun t p => (updateStatus t now id "processing" (some p) none).1) tbl₀
  match run.1 with
  | Except.ok _ =>
      let _logs := saveResultLogs write id
      (updateStatus tbl₁ now id "completed" (some 100) none).1
  | Except.error e => (updateStatus tbl₁ now id "failed" none (some e)).1

/-! ## Emotion annotation (`EmotionDetector`, `src/models/emotion.py`) -/

/-- The dictionary returned by `EmotionDetector.detect_emotion`. -/
structure EmoResult where
  primary_emotion : String
  confidence : ℚ
  probabilities : List (String × ℚ)
deriving DecidableEq

/-- The dictionary returned on a classifier failure:
`{"primary_emotion": "unknown", "confidence": 0.0, "probabilities": {}}`. -/
def fallbackEmotion : EmoResult :=
  ⟨"unknown", 0, []⟩

/-- `EmotionDetector.detect_emotion`: the classifier call is wrapped in
`try/except Exception`; a raise is logged and replaced by the fallback
dictionary, so the function always returns. -/
def detect_emotion (classified : Except String EmoResult) : EmoResult :=
  match classified with
  | Except.ok r => r
  | Except.error _ => fallbackEmotion

/-- A segment after `detect_emotions_for_segments`: the original keys
plus the emotion keys, `Option` so that an unset key is representable. -/
structure AnnotatedSeg where
  seg : MergedSeg
  emotion : Option String
  emotion_confidence : Option ℚ
  emotion_probabilities : Option (List (String × ℚ))
deriving DecidableEq

/-- `EmotionDetector.detect_emotions_for_segments`: every segment is
copied and updated with the three emotion keys taken from
`detect_emotion` on its audio sub-range (`classify` is the environment's
classifier outcome per segment); the keys are written unconditionally. -/
def detect_emotions_for_segments (segs : List MergedSeg)
    (classify : MergedSeg → Except String EmoResult) : List AnnotatedSeg :=
  segs.map fun s =>
    let r := detect_emotion (classify s)
    ⟨s, some r.primary_emotion, some r.confidence, some r.probabilities⟩

/-! ## Claim theorems -/

/-- Claim C1: fusion assigns every transcription span the speaker of the
diarization interval with maximal temporal overlap
`max(0, min(T.end, D.end) - max(T.start, D.start))`, ties keeping the
first interval in input order, and assigns `"UNKNOWN"` whenever the
maximal overlap is `0` (empty diarization lists and zero-duration spans
included). -/
theorem fusion_assigns_max_overlap_speaker :
    (∀ (ts : List TransSeg) (ds : List DiaSeg),
      mergeTranscriptionDiarization ts ds =
        ts.map fun t => ⟨t.start, t.stop, t.text, claimedFusedSpeaker t ds⟩) ∧
    (∀ (t : TransSeg) (ds : List DiaSeg),
      maxOverlap t ds = 0 → bestSpeaker t ds = "UNKNOWN") := by
  constructor
  · intro ts ds
    unfold mergeTranscriptionDiarization
    simp only [bestSpeaker_eq_claimed]
  · intro t ds h
    rw [bestSpeaker_eq_claimed]
    unfold claimedFusedSpeaker
    rw [if_pos h]

/-- Witness for C1: a span entirely outside the only diarization
interval has maximal overlap `0` and is labelled `"UNKNOWN"`. -/
theorem fusion_assigns_max_overlap_speaker_witness :
    bestSpeaker ⟨5, 6, "x"⟩ [⟨0, 4, "A"⟩] = "UNKNOWN" :=
  fusion_assigns_max_overlap_speaker.2 ⟨5, 6, "x"⟩ [⟨0, 4, "A"⟩]
    (by norm_num [maxOverlap, maxOverlapFrom, overlap])

/-- Claim C2: on every successful `process_meeting` run, whatever the
`enable_emotion`/`enable_context` combination, the values handed to the
progress callback strictly increase and end at exactly `100`. -/
theorem progress_strictly_increasing_to_100 :
    ∀ (st : StageOutcomes) (ee ec : Bool),
      (processMeetingRun st ee ec).1 = Except.ok () →
      List.Chain' (· < ·) (processMeetingRun st ee ec).2 ∧
        (processMeetingRun st ee ec).2.getLast? = some 100 := by
  intro st ee ec h
  rw [processMeetingRun_ok_progress st ee ec h]
  exact ⟨by norm_num [List.chain'_cons], rfl⟩

/-- Witness for C2: the all-stages-succeed environment completes and its
progress trace is strictly increasing with final value `100`. -/
theorem progress_strictly_increasing_to_100_witness :
    List.Chain' (· < ·) (processMeetingRun allStagesOk true true).2 ∧
      (processMeetingRun allStagesOk true true).2.getLast? = some 100 :=
  progress_strictly_increasing_to_100 allStagesOk true true rfl

/-- Counterexample to claim C3: a run with `enableContext=false` still
issues a similarity query against the historical-context store, because
the pipeline constructs the orchestrator with the context agent enabled
and the flag only reaches `store_context`. -/
theorem context_disabled_still_queries_store :
    StoreEvent.query ∈
      (pipelineOrchCall ⟨Except.ok ⟨[], [], [], []⟩, Except.ok ⟨none⟩, Except.ok ⟨[]⟩⟩
        false []).2.2 := by
  decide

/-- Claim C3 as amended: a run with `enableContext=false` never
adds/persists the current meeting to the historical-context store, but
its context phase still issues exactly one similarity query. -/
theorem context_disabled_no_store_add :
    ∀ (ph : PhaseBehavior) (segs : List MergedSeg),
      (pipelineOrchCall ph false segs).2.2 = [StoreEvent.query] ∧
        StoreEvent.add ∉ (pipelineOrchCall ph false segs).2.2 := by
  intro ph segs
  obtain ⟨a, s, c⟩ := ph
  cases c <;> simp [pipelineOrchCall, orchestratorProcess]

/-- Counterexample to claim C4: with `store_context=true`, when the
context analysis call raises, the current meeting is not persisted into
the store — the `store_meeting` call sits after `process` inside the
same `try` block. -/
theorem context_raise_skips_persist :
    StoreEvent.add ∉
      (orchestratorProcess ⟨Except.ok ⟨[], [], [], []⟩, Except.ok ⟨none⟩,
        Except.error "context analysis raised"⟩ true true []).2.2 := by
  decide

/-- Claim C4 as amended: with the context agent enabled and
`store_context=true`, the current meeting is persisted exactly when the
context analysis call returns without raising (a JSON-parse failure
returns a fallback payload and still persists); when the call raises,
persistence is skipped and the phase result is the error marker. -/
theorem context_persist_iff_analysis_returns :
    ∀ (ph : PhaseBehavior) (segs : List MergedSeg),
      (∀ p, ph.contextAnalysis = Except.ok p →
        (orchestratorProcess ph true true segs).2.2 =
          [StoreEvent.query, StoreEvent.add] ∧
        (orchestratorProcess ph true true segs).1.context =
          some (PhaseResult.ok p)) ∧
      (∀ e, ph.contextAnalysis = Except.error e →
        (orchestratorProcess ph true true segs).2.2 = [StoreEvent.query] ∧
        (orchestratorProcess ph true true segs).1.context =
          some (PhaseResult.err e)) := by
  intro ph segs
  constructor
  · intro p hp
    simp [orchestratorProcess, hp]
  · intro e he
    simp [orchestratorProcess, he]

/-- Witness for C4 (amended): concrete runs exercising both the
returning and the raising context analysis. -/
theorem context_persist_iff_analysis_returns_witness :
    ((orchestratorProcess ⟨Except.ok ⟨[], [], [], []⟩, Except.ok ⟨none⟩,
        Except.ok ⟨["theme"]⟩⟩ true true []).2.2 =
      [StoreEvent.query, StoreEvent.add]) ∧
    ((orchestratorProcess ⟨Except.ok ⟨[], [], [], []⟩, Except.ok ⟨none⟩,
        Except.error "boom"⟩ true true []).2.2 = [StoreEvent.query]) :=
  ⟨((context_persist_iff_analysis_returns
      ⟨Except.ok ⟨[], [], [], []⟩, Except.ok ⟨none⟩, Except.ok ⟨["theme"]⟩⟩ []).1
        ⟨["theme"]⟩ rfl).1,
    ((context_persist_iff_analysis_returns
      ⟨Except.ok ⟨[], [], [], []⟩, Except.ok ⟨none⟩, Except.error "boom"⟩ []).2
        "boom" rfl).1⟩

/-- Claim C5: a raising sentiment phase becomes the `{error}` marker,
the actions and context results still appear, and the executive summary
drops only the mood/tone contribution while keeping the action-item,
decision and context highlights of the phases that succeeded. -/
theorem sentiment_failure_isolated :
    ∀ (pa : ActionsPayload) (pc : ContextPayload) (e : String) (store : Bool)
      (segs : List MergedSeg),
      ((orchestratorProcess ⟨Except.ok pa, Except.error e, Except.ok pc⟩
          true store segs).1.actions = PhaseResult.ok pa) ∧
      ((orchestratorProcess ⟨Except.ok pa, Except.error e, Except.ok pc⟩
          true store segs).1.sentiment = PhaseResult.err e) ∧
      ((orchestratorProcess ⟨Except.ok pa, Except.error e, Except.ok pc⟩
          true store segs).1.context = some (PhaseResult.ok pc)) ∧
      ((orchestratorProcess ⟨Except.ok pa, Except.error e, Except.ok pc⟩
          true store segs).2.1.key_highlights =
        actionHighlightsOf pa.action_items pa.decisions ++
          ctxHighlightsOf (some (PhaseResult.ok pc))) ∧
      ((orchestratorProcess ⟨Except.ok pa, Except.error e, Except.ok pc⟩
          true store segs).2.1.overall_mood = none) ∧
      ((orchestratorProcess ⟨Except.ok pa, Except.error e, Except.ok pc⟩
          true store segs).2.1.overall_tone = none) := by
  intro pa pc e store segs
  refine ⟨?_, ?_, ?_, ?_, ?_, ?_⟩ <;>
    simp [orchestratorProcess, genExecSummary, sentOverall, phaseActionItems,
      phaseDecisions, sentHighlightsOf]

lemma updateStatus_isSome (tbl : TaskTable) (now id s : String) (pr : Option ℕ)
    (er : Option String) (h : (tbl id).isSome) :
    ((updateStatus tbl now id s pr er).1 id).isSome := by
  obtain ⟨t, ht⟩ := Option.isSome_iff_exists.mp h
  simp [updateStatus, ht]

lemma updateStatus_status_progress (tbl : TaskTable) (now id s : String) (p : ℕ)
    (h : (tbl id).isSome) :
    ((updateStatus tbl now id s (some p) none).1 id).map Task.status = some s ∧
    ((updateStatus tbl now id s (some p) none).1 id).map Task.progress = some p := by
  obtain ⟨t, ht⟩ := Option.isSome_iff_exists.mp h
  simp [updateStatus, ht]

lemma foldl_progress_isSome (now id : String) :
    ∀ (ps : List ℕ) (tbl : TaskTable), (tbl id).isSome →
      ((ps.foldl (fun t p => (updateStatus t now id "processing" (some p) none).1) tbl)
        id).isSome := by
  intro ps
  induction ps with
  | nil => intro tbl h; exact h
  | cons p ps ih =>
      intro tbl h
      exact ih _ (updateStatus_isSome tbl now id "processing" (some p) none h)

lemma createTask_isSome (tbl : TaskTable) (now fid : String) :
    ((createTask tbl now fid).1 (createTask tbl now fid).2).isSome := by
  simp [createTask]

/-- Claim C6: `save_result` swallows and logs storage failures (its
codomain is the log, not an `Except`), so in the background worker a
failing result write leaves the final `update_status("completed",
progress=100)` intact: the final task entry is `completed` at progress
`100`, the whole worker run is independent of the write outcome, and the
failure is logged. -/
theorem save_failure_keeps_completed :
    ∀ (tbl : TaskTable) (now₀ now fid : String) (st : StageOutcomes) (ee ec : Bool)
      (write : Except String Unit) (m : String),
      (processMeetingRun st ee ec).1 = Except.ok () →
      ((getStatus (processMeetingTask (createTask tbl now₀ fid).1 now
          (createTask tbl now₀ fid).2 st ee ec write)
          (createTask tbl now₀ fid).2).map Task.status = some "completed") ∧
      ((getStatus (processMeetingTask (createTask tbl now₀ fid).1 now
          (createTask tbl now₀ fid).2 st ee ec write)
          (createTask tbl now₀ fid).2).map Task.progress = some 100) ∧
      (processMeetingTask (createTask tbl now₀ fid).1 now (createTask tbl now₀ fid).2
          st ee ec write =
        processMeetingTask (createTask tbl now₀ fid).1 now (createTask tbl now₀ fid).2
          st ee ec (Except.ok ())) ∧
      (saveResultLogs (Except.error m) (createTask tbl now₀ fid).2 =
        ["Failed to save result for " ++ (createTask tbl now₀ fid).2 ++ ": " ++ m]) := by
  intro tbl now₀ now fid st ee ec write m h
  have h₀ := createTask_isSome tbl now₀ fid
  have h₁ := updateStatus_isSome (createTask tbl now₀ fid).1 now
    (createTask tbl now₀ fid).2 "processing" (some 0) none h₀
  have h₂ := foldl_progress_isSome now (createTask tbl now₀ fid).2
    (processMeetingRun st ee ec).2 _ h₁
  have hfinal := updateStatus_status_progress _ now (createTask tbl now₀ fid).2
    "completed" 100 h₂
  refine ⟨?_, ?_, rfl, rfl⟩
  · simp only [processMeetingTask, h]
    exact hfinal.1
  · simp only [processMeetingTask, h]
    exact hfinal.2

/-- Witness for C6: a concrete successful run whose result write raises
still ends with the task `completed`. -/
theorem save_failure_keeps_completed_witness :
    (getStatus (processMeetingTask (createTask (fun _ => none) "t0" "f1").1 "t1"
        (createTask (fun _ => none) "t0" "f1").2 allStagesOk true true
        (Except.error "disk full"))
      (createTask (fun _ => none) "t0" "f1").2).map Task.status = some "completed" :=
  (save_failure_keeps_completed (fun _ => none) "t0" "t1" "f1" allStagesOk true true
    (Except.error "disk full") "disk full" rfl).1

/-- Claim C7: `update_status` on an unknown id leaves the task table
unchanged, logs a warning and (being a total function) never raises; and
after `create_task` followed by
`update_status(id, "processing", progress=40)` the stored progress is
`40`. -/
theorem update_status_unknown_noop_and_progress_40 :
    (∀ (tbl : TaskTable) (now id s : String) (pr : Option ℕ) (er : Option String),
      tbl id = none →
        updateStatus tbl now id s pr er = (tbl, ["Task not found: " ++ id])) ∧
    (∀ (tbl : TaskTable) (now₀ now fid : String),
      (getStatus (updateStatus (createTask tbl now₀ fid).1 now
          (createTask tbl now₀ fid).2 "processing" (some 40) none).1
        (createTask tbl now₀ fid).2).map Task.progress = some 40) := by
  constructor
  · intro tbl now id s pr er h
    simp [updateStatus, h]
  · intro tbl now₀ now fid
    have h₀ := createTask_isSome tbl now₀ fid
    exact (updateStatus_status_progress (createTask tbl now₀ fid).1 now
      (createTask tbl now₀ fid).2 "processing" 40 h₀).2

/-- Witness for C7: updating an id absent from the empty table is a
logged no-op. -/
theorem update_status_unknown_noop_witness :
    updateStatus (fun _ => none) "t1" "unknown_id" "processing" none none =
      ((fun _ => none : TaskTable), ["Task not found: " ++ "unknown_id"]) :=
  update_status_unknown_noop_and_progress_40.1 (fun _ => none) "t1" "unknown_id"
    "processing" none none rfl

/-- Counterexample to claim C8: two distinct `create_task` calls — here
with different file ids sharing their first eight characters — made in
the same second return the same task id, so ids are not collision-free
across a process lifetime. -/
theorem create_task_same_second_collision :
    ((createTask (fun _ => none) "20251012_101500" "abcdefgh-1111").2 =
      (createTask (fun _ => none) "20251012_101500" "abcdefgh-2222").2) ∧
    ("abcdefgh-1111" : String) ≠ "abcdefgh-2222" := by
  exact ⟨by decide, by decide⟩

/-- Claim C8 as amended: `create_task` returns
`"task_" ++ timestamp ++ "_" ++ file_id[:8]` and stores a fresh
`pending`, progress-`0` entry under that id (overwriting any same-id
entry); consequently ids are unique only across calls that differ in
their second-resolution timestamp or in the first eight characters of
the file id — for equal-length timestamps the id determines exactly
that pair. -/
theorem create_task_id_shape :
    (∀ (tbl : TaskTable) (now fid : String),
      (createTask tbl now fid).2 = "task_" ++ now ++ "_" ++ fid.take 8 ∧
      getStatus (createTask tbl now fid).1 (createTask tbl now fid).2 =
        some ⟨fid, "pending", 0, now, now, none⟩) ∧
    (∀ (now now' x x' : String), now.length = now'.length →
      (("task_" ++ now ++ "_" ++ x : String) = "task_" ++ now' ++ "_" ++ x' ↔
        (now = now' ∧ x = x'))) := by
  constructor
  · intro tbl now fid
    exact ⟨rfl, by simp [createTask, getStatus]⟩
  · intro now now' x x' hlen
    constructor
    · intro h
      obtain ⟨ln⟩ := now
      obtain ⟨ln'⟩ := now'
      obtain ⟨lx⟩ := x
      obtain ⟨lx'⟩ := x'
      have hlen' : ln.length = ln'.length := hlen
      have hd : (("task_".data ++ ln) ++ "_".data) ++ lx =
          (("task_".data ++ ln') ++ "_".data) ++ lx' := congrArg String.data h
      have hlen₁ : (("task_".data ++ ln) ++ "_".data).length =
          (("task_".data ++ ln') ++ "_".data).length := by
        simp [hlen']
      obtain ⟨h₁, h₂⟩ := List.append_inj hd hlen₁
      have hlen₂ : ("task_".data ++ ln).length = ("task_".data ++ ln').length := by
        simp [hlen']
      obtain ⟨h₃, _⟩ := List.append_inj h₁ hlen₂
      obtain ⟨_, h₄⟩ := List.append_inj h₃ rfl
      exact ⟨congrArg String.mk h₄, congrArg String.mk h₂⟩
    · intro hand
      rw [hand.1, hand.2]

/-- Witness for C8 (amended): the decomposition at concrete
equal-length timestamps. -/
theorem create_task_id_shape_witness :
    (("task_" ++ "20251012_101500" ++ "_" ++ "abcdefgh" : String) =
        "task_" ++ "20251012_101500" ++ "_" ++ "abcdefgh" ↔
      (("20251012_101500" : String) = "20251012_101500" ∧
        ("abcdefgh" : String) = "abcdefgh")) :=
  create_task_id_shape.2 "20251012_101500" "20251012_101500" "abcdefgh" "abcdefgh" rfl

/-- Counterexample to claim C9: a classifier failure on the first
segment does not abort the second, but the failed segment's emotion
fields are not left unset — they are set to the fallback `"unknown"`
label with confidence `0`. -/
theorem emotion_failure_sets_fallback :
    (detect_emotions_for_segments
        [⟨0, 1, "first", "A"⟩, ⟨1, 2, "second", "B"⟩]
        (fun s => if s.text = "first" then Except.error "classifier crashed"
          else Except.ok ⟨"happy", 1, [("happy", 1)]⟩) =
      [⟨⟨0, 1, "first", "A"⟩, some "unknown", some 0, some []⟩,
        ⟨⟨1, 2, "second", "B"⟩, some "happy", some 1, some [("happy", 1)]⟩]) ∧
    ((detect_emotions_for_segments
        [⟨0, 1, "first", "A"⟩, ⟨1, 2, "second", "B"⟩]
        (fun s => if s.text = "first" then Except.error "classifier crashed"
          else Except.ok ⟨"happy", 1, [("happy", 1)]⟩)).map AnnotatedSeg.emotion ≠
      [none, some "happy"]) := by
  exact ⟨by decide, by decide⟩

/-- Claim C9 as amended: a tagging failure for one segment does not
abort the rest — each segment is annotated independently; a failing
segment's emotion fields are set to the logged fallback
(`"unknown"`, confidence `0`, empty probabilities) rather than left
unset, and every other segment receives its classifier's label and
confidence. -/
theorem emotion_annotation_per_segment :
    ∀ (segs : List MergedSeg) (classify : MergedSeg → Except String EmoResult),
      ((detect_emotions_for_segments segs classify).length = segs.length) ∧
      (∀ i : ℕ, (detect_emotions_for_segments segs classify)[i]? =
        segs[i]?.map fun s =>
          ⟨s, some (detect_emotion (classify s)).primary_emotion,
            some (detect_emotion (classify s)).confidence,
            some (detect_emotion (classify s)).probabilities⟩) ∧
      (∀ (s : MergedSeg) (e : String), classify s = Except.error e →
        detect_emotion (classify s) = fallbackEmotion) := by
  intro segs classify
  refine ⟨by simp [detect_emotions_for_segments], ?_, ?_⟩
  · intro i
    simp [detect_emotions_for_segments, List.getElem?_map]
  · intro s e h
    simp [detect_emotion, h]

/-- Witness for C9 (amended): the fallback on a concrete raising
classifier. -/
theorem emotion_annotation_per_segment_witness :
    detect_emotion ((fun _ : MergedSeg => (Except.error "boom" : Except String EmoResult))
      ⟨0, 0, "", ""⟩) = fallbackEmotion :=
  (emotion_annotation_per_segment [] (fun _ => Except.error "boom")).2.2
    ⟨0, 0, "", ""⟩ "boom" rfl

lemma mem_extractSpeakers (segs : List MergedSeg) (s : String) :
    s ∈ extractSpeakers segs ↔
      (s ∈ segs.map MergedSeg.speaker ∧ s ≠ "" ∧ s ≠ "UNKNOWN") := by
  simp [extractSpeakers, sortStrings, List.mem_filter, and_assoc]

lemma mem_formatSpeakers (segs : List MergedSeg) (s : String) :
    s ∈ formatSpeakers segs ↔ s ∈ segs.map MergedSeg.speaker := by
  simp [formatSpeakers, sortStrings]

/-- Counterexample to claim C10: for the fused output of a diarization
interval carrying the empty speaker label, the orchestrator's extraction
is not "the sorted unique labels with only `UNKNOWN` removed" — the
Python truthiness test drops the empty label as well. -/
theorem unknown_filter_also_drops_empty_label :
    extractSpeakers (mergeTranscriptionDiarization [⟨0, 1, "hi"⟩] [⟨0, 1, ""⟩]) ≠
      claimedParticipants (mergeTranscriptionDiarization [⟨0, 1, "hi"⟩] [⟨0, 1, ""⟩]) := by
  have h : mergeTranscriptionDiarization [⟨0, 1, "hi"⟩] [⟨0, 1, ""⟩] =
      [⟨0, 1, "hi", ""⟩] := by
    norm_num [mergeTranscriptionDiarization, bestSpeaker, speakerStep, overlap]
  rw [h]
  decide

/-- Claim C10 as amended: the orchestrator's speaker extraction returns
the sorted unique speaker labels with `"UNKNOWN"` and empty labels
filtered out, the pipeline's report formatting returns the sorted unique
labels with nothing filtered, and a meeting with an unattributed segment
lists `"UNKNOWN"` among the report's speakers but never among the
summary's participants. -/
theorem speakers_report_vs_participants :
    (∀ (segs : List MergedSeg) (s : String),
      s ∈ extractSpeakers segs ↔
        (s ∈ segs.map MergedSeg.speaker ∧ s ≠ "" ∧ s ≠ "UNKNOWN")) ∧
    (∀ (segs : List MergedSeg) (s : String),
      s ∈ formatSpeakers segs ↔ s ∈ segs.map MergedSeg.speaker) ∧
    (∀ segs : List MergedSeg,
      (extractSpeakers segs).Sorted (· ≤ ·) ∧ (formatSpeakers segs).Sorted (· ≤ ·) ∧
      (extractSpeakers segs).Nodup ∧ (formatSpeakers segs).Nodup) ∧
    (∀ segs : List MergedSeg, (∃ g ∈ segs, g.speaker = "UNKNOWN") →
      ("UNKNOWN" ∈ formatSpeakers segs ∧ "UNKNOWN" ∉ extractSpeakers segs)) := by
  refine ⟨mem_extractSpeakers, mem_formatSpeakers, ?_, ?_⟩
  · intro segs
    refine ⟨List.sorted_insertionSort _ _, List.sorted_insertionSort _ _, ?_, ?_⟩
    · exact ((List.perm_insertionSort _ _).nodup_iff).mpr (List.nodup_dedup _)
    · exact ((List.perm_insertionSort _ _).nodup_iff).mpr (List.nodup_dedup _)
  · intro segs ⟨g, hg, hspk⟩
    constructor
    · exact (mem_formatSpeakers segs "UNKNOWN").mpr
        (List.mem_map.mpr ⟨g, hg, hspk⟩)
    · intro hmem
      exact ((mem_extractSpeakers segs "UNKNOWN").mp hmem).2.2 rfl

/-- Witness for C10 (amended): a single unattributed segment puts
`"UNKNOWN"` in the report's speakers but not among the participants. -/
theorem speakers_report_vs_participants_witness :
    ("UNKNOWN" ∈ formatSpeakers [⟨0, 1, "hi", "UNKNOWN"⟩] ∧
      "UNKNOWN" ∉ extractSpeakers [⟨0, 1, "hi", "UNKNOWN"⟩]) :=
  speakers_report_vs_participants.2.2.2 [⟨0, 1, "hi", "UNKNOWN"⟩]
    ⟨⟨0, 1, "hi", "UNKNOWN"⟩, by simp, rfl⟩

end MeetingSummarizer
